import Mathlib

set_option maxHeartbeats 1000000

/-
Shallow embedding of the job-orchestration core of `src/ml_service.py`
(a Flask service running zero-shot classification batches through a
ProcessPoolExecutor).  Python dicts are modelled as association lists with
first-occurrence semantics; `time.time()` values are modelled as integers;
the inference backend (`get_classifier`) is an abstract parameter that may
fail; the captured log is modelled as the list of logged messages
(formatter timestamps elided).
-/

namespace MLService

/-- Job lifecycle states, mirroring `class JobState(Enum)` in `src/ml_service.py`. -/
inductive JobState where
  | queued
  | processing
  | completed
  | failed
  | aborted
deriving DecidableEq, Repr

/-- The `.value` string of each enum member. -/
def JobState.value : JobState → String
  | .queued => "queued"
  | .processing => "processing"
  | .completed => "completed"
  | .failed => "failed"
  | .aborted => "aborted"

/-- Constructing `JobState(s)` from its value string; `none` models the
`ValueError` raised for an unrecognised string. -/
def JobState.fromString (s : String) : Option JobState :=
  if s = "queued" then some .queued
  else if s = "processing" then some .processing
  else if s = "completed" then some .completed
  else if s = "failed" then some .failed
  else if s = "aborted" then some .aborted
  else none

/-- Terminal states, the list `[JobState.COMPLETED, JobState.FAILED, JobState.ABORTED]`
used by the reaper, the cancel handler and the shutdown path. -/
def JobState.isTerminal : JobState → Bool
  | .completed => true
  | .failed => true
  | .aborted => true
  | _ => false

/-- One per-item outcome as built by the worker loop:
`{"title": title, "predicted": result["labels"][0], "scores": dict(zip(labels, scores))}`.
The scores dict is modelled as the zipped association list (labels are distinct
in practice, so dict collapsing of duplicate keys does not arise). -/
structure ResultEntry where
  title : String
  predicted : String
  scores : List (String × Rat)
deriving DecidableEq, Repr

/-- Output of one call to the zero-shot classifier: ranked labels with scores. -/
structure ClsOutput where
  labels : List String
  scores : List Rat
deriving DecidableEq, Repr

/-- The inference backend `classifier(title, categories)`: abstract, may raise
(the `Except.error` carries `str(e)`). -/
def Classifier : Type := String → List String → Except String ClsOutput

/-- The `JobStatus` dataclass. Timestamps are integers; `log` is the list of
messages captured from the worker logger. -/
structure JobStatus where
  status : JobState
  created_at : Int
  progress : Rat
  total : Nat
  categories : List String
  started_at : Option Int := none
  completed_at : Option Int := none
  results : Option (List ResultEntry) := none
  error : Option String := none
  log : Option (List String) := none
deriving DecidableEq, Repr

/-- The dict returned by `process_classification_job` and consumed by the
completion callback via `result.get(...)`. -/
structure WorkerResult where
  status : String
  results : Option (List ResultEntry) := none
  error : Option String := none
  log : Option (List String) := none
deriving DecidableEq, Repr

/-- Association-list lookup, modelling `d[k]` / `k in d` on a Python dict
(keys are unique in any state actually produced by the service). -/
def lookupR {α : Type} : List (String × α) → String → Option α
  | [], _ => none
  | p :: ps, k => if p.1 = k then some p.2 else lookupR ps k

/-- Association-list insertion, modelling `d[k] = v`: replaces the binding
if the key is present, appends otherwise (Python dicts keep insertion order). -/
def insertR {α : Type} : List (String × α) → String → α → List (String × α)
  | [], k, v => [(k, v)]
  | p :: ps, k, v => if p.1 = k then (k, v) :: ps else p :: insertR ps k v

/-- Association-list deletion, modelling `if k in d: del d[k]` (a no-op when
the key is absent). -/
def eraseR {α : Type} : List (String × α) → String → List (String × α)
  | [], _ => []
  | p :: ps, k => if p.1 = k then ps else p :: eraseR ps k

/-- In-place mutation of the record stored at a key, modelling
`d[k].field = ...`; a no-op on a missing key. -/
def updateR {α : Type} : List (String × α) → String → (α → α) → List (String × α)
  | [], _, _ => []
  | p :: ps, k, f => if p.1 = k then (p.1, f p.2) :: ps else p :: updateR ps k f

/-- The shared mutable state of the service: the `jobs` registry and the
`job_cancel_events` directory (a `threading.Event` is its boolean set-flag). -/
structure ServiceState where
  jobs : List (String × JobStatus)
  job_cancel_events : List (String × Bool)
deriving DecidableEq, Repr

/-- `RESULT_TTL = 3600`. -/
def RESULT_TTL : Int := 3600

/-- `CLEANUP_INTERVAL = 300`. -/
def CLEANUP_INTERVAL : Int := 300

/-- The startup message logged by the worker. -/
def startMsg (job_id : String) (n : Nat) : String :=
  "Starting classification job " ++ job_id ++ " with " ++ toString n ++ " titles"

/-- The success message logged by the worker. -/
def doneMsg (job_id : String) : String :=
  "Job " ++ job_id ++ " completed successfully"

/-- The failure message logged by the worker (`logger.exception`; the traceback
text is elided). -/
def failMsg (job_id : String) (e : String) : String :=
  "Job " ++ job_id ++ " failed with error: " ++ e

/-- One iteration of the worker loop: call the classifier on one title and build
the per-item entry; `result["labels"][0]` raises `IndexError` on an empty label
list, modelled as an error. -/
def classifyItem (cls : Classifier) (categories : List String) (title : String) :
    Except String ResultEntry :=
  match cls title categories with
  | .error e => .error e
  | .ok out =>
      match out.labels.head? with
      | none => .error "list index out of range"
      | some top => .ok { title := title, predicted := top, scores := out.labels.zip out.scores }

/-- The worker loop `for i, title in enumerate(titles)`: processes items in
order, stopping at (and propagating) the first exception. -/
def processItems (cls : Classifier) (categories : List String) :
    List String → Except String (List ResultEntry)
  | [] => .ok []
  | t :: ts =>
      match classifyItem cls categories t with
      | .error e => .error e
      | .ok r =>
          match processItems cls categories ts with
          | .error e => .error e
          | .ok rs => .ok (r :: rs)

/-- The job body run inside the pool. Note that it takes no cancellation
handle: the source function never consults `job_cancel_events` (the
`threading.Event` lives in the parent process and is not passed to, nor
readable from, the worker process). -/
def process_classification_job (cls : Classifier) (job_id : String)
    (titles categories : List String) : WorkerResult :=
  match processItems cls categories titles with
  | .ok rs =>
      { status := "completed", results := some rs,
        log := some [startMsg job_id titles.length, doneMsg job_id] }
  | .error e =>
      { status := "failed", error := some e,
        log := some [startMsg job_id titles.length, failMsg job_id e] }

/-- Message text of the `ValueError` raised by `JobState(s)` for an invalid
string (CPython also wraps `s` in quotes, elided here). -/
def jobStateValueError (s : String) : String :=
  s ++ " is not a valid JobState"

/-- The completion callback attached to the job future. `outcome` is what
`future.result()` yields: `Except.ok` a worker result dict, or `Except.error`
the text of the exception the future re-raises. The whole body is wrapped in
`try/except`; the record is written only if `job_id in jobs`, with no check of
the record's current (possibly terminal) status. -/
def callback (st : ServiceState) (job_id : String)
    (outcome : Except String WorkerResult) (now : Int) : ServiceState :=
  match outcome with
  | .ok r =>
      match JobState.fromString r.status with
      | some s =>
          { st with jobs := updateR st.jobs job_id (fun j =>
              { j with status := s, results := r.results, error := r.error,
                       log := r.log, completed_at := some now }) }
      | none =>
          { st with jobs := updateR st.jobs job_id (fun j =>
              { j with status := .failed, error := some (jobStateValueError r.status),
                       completed_at := some now }) }
  | .error e =>
      { st with jobs := updateR st.jobs job_id (fun j =>
          { j with status := .failed, error := some e, completed_at := some now }) }

/-- Responses of the `POST /classify/batch` handler. -/
inductive SubmitResponse where
  | invalid (error : String)
  | accepted (job_id : String) (status : String) (total : Nat)
deriving DecidableEq, Repr

/-- The `POST /classify/batch` handler up to the executor dispatch. `job_id` is
the fresh uuid produced by the collision-check loop (callers supply one not in
the registry); `t_created` and `t_started` are the two `time.time()` calls. -/
def classify_batch (st : ServiceState) (titles categories : List String)
    (job_id : String) (t_created t_started : Int) : ServiceState × SubmitResponse :=
  if titles = [] ∨ categories = [] then
    (st, .invalid "Titles and categories required")
  else if titles.length > 100 then
    (st, .invalid "Maximum 100 titles allowed")
  else
    let st1 : ServiceState :=
      { st with job_cancel_events := insertR st.job_cancel_events job_id false }
    let job0 : JobStatus :=
      { status := .queued, created_at := t_created, progress := 0,
        total := titles.length, categories := categories }
    let st2 : ServiceState := { st1 with jobs := insertR st1.jobs job_id job0 }
    let st3 : ServiceState :=
      { st2 with jobs := updateR st2.jobs job_id (fun j =>
          { j with status := .processing, started_at := some t_started }) }
    (st3, .accepted job_id "processing" titles.length)

/-- Responses of the `POST /jobs/id/cancel` handler. -/
inductive CancelResponse where
  | notFound (error : String)
  | invalidState (error : String)
  | ok (job_id status message : String)
deriving DecidableEq, Repr

/-- The `POST /jobs/id/cancel` handler. -/
def cancel_job (st : ServiceState) (job_id : String) (now : Int) :
    ServiceState × CancelResponse :=
  match lookupR st.jobs job_id with
  | none => (st, .notFound "Job not found")
  | some job =>
      if job.status = .queued ∨ job.status = .processing then
        let ev :=
          if (lookupR st.job_cancel_events job_id).isSome then
            insertR st.job_cancel_events job_id true
          else st.job_cancel_events
        ({ jobs := updateR st.jobs job_id (fun j =>
              { j with status := .aborted, completed_at := some now }),
           job_cancel_events := ev },
         .ok job_id "aborted" "Job cancellation requested")
      else
        (st, .invalidState ("Cannot cancel job in state: " ++ job.status.value))

/-- Responses of the `GET /jobs/id/results` handler. -/
inductive ResultsResponse where
  | notFound (error : String)
  | invalidState (error : String)
  | ok (job_id : String) (results : Option (List ResultEntry)) (total : Nat)
      (categories : List String)
deriving DecidableEq, Repr

/-- The `GET /jobs/id/results` handler (read-only). -/
def get_job_results (st : ServiceState) (job_id : String) : ResultsResponse :=
  match lookupR st.jobs job_id with
  | none => .notFound "Job not found"
  | some job =>
      if job.status ≠ .completed then
        .invalidState ("Job not completed yet (status: " ++ job.status.value ++ ")")
      else
        .ok job_id job.results job.total job.categories

/-- The deletion test of one `cleanup_jobs` scan:
`job.status in [COMPLETED, FAILED, ABORTED] and job.completed_at` (Python
truthiness: `None` and `0.0` are falsy) `and now - job.completed_at > RESULT_TTL`. -/
def reapable (job : JobStatus) (now : Int) : Bool :=
  job.status.isTerminal &&
    (match job.completed_at with
     | some t => t != 0 && decide (now - t > RESULT_TTL)
     | none => false)

/-- One cycle of the reaper loop `cleanup_jobs`: collect the expired terminal
ids, then delete each from `jobs` and from `job_cancel_events`. -/
def cleanup_step (st : ServiceState) (now : Int) : ServiceState :=
  let toDelete := (st.jobs.filter (fun p => reapable p.2 now)).map Prod.fst
  { jobs := toDelete.foldl (fun m k => eraseR m k) st.jobs,
    job_cancel_events := toDelete.foldl (fun m k => eraseR m k) st.job_cancel_events }

/-- The value transformation `shutdown_gracefully` applies to each record:
non-terminal records are forced to Aborted with `completed_at` set. -/
def shutJob (now : Int) (j : JobStatus) : JobStatus :=
  if j.status = .queued ∨ j.status = .processing then
    { j with status := .aborted, completed_at := some now }
  else j

/-- The registry part of `shutdown_gracefully`: for every Queued/Processing
record, force it to Aborted with `completed_at := now` and set its cancel
event when one exists. (Setting `shutdown_event`, shutting the executor down
and the terminate/kill escalation act on the OS process pool, outside this
state.) -/
def shutdown_gracefully (st : ServiceState) (now : Int) : ServiceState :=
  { jobs := st.jobs.map (fun p => (p.1, shutJob now p.2)),
    job_cancel_events := st.jobs.foldl (fun ev p =>
      if (p.2.status = .queued ∨ p.2.status = .processing) ∧
          (lookupR ev p.1).isSome then
        insertR ev p.1 true
      else ev) st.job_cancel_events }


/-- Invariant of the data model: a record's `completed_at` is set exactly when
its status is terminal. -/
def completedIffTerminal (st : ServiceState) : Prop :=
  ∀ job_id job, lookupR st.jobs job_id = some job →
    (job.completed_at ≠ none ↔ job.status.isTerminal = true)

/-- Executable check of `completedIffTerminal` on a concrete state. -/
def completedIffTerminalB (st : ServiceState) : Bool :=
  st.jobs.all (fun p => p.2.completed_at.isSome == p.2.status.isTerminal)

/-- Test fixture: a total classifier ranking the given categories in order,
each with score 1. -/
def clsK : Classifier := fun _t cats =>
  .ok { labels := cats, scores := cats.map (fun _ => 1) }

/-- Test fixture: the `ClsOutput` that `clsK` yields for category list `["x"]`. -/
def outK : String → ClsOutput := fun _t => { labels := ["x"], scores := [1] }

/-- Test fixture: a Processing record. -/
def jobProc : JobStatus :=
  { status := .processing, created_at := 1, progress := 0, total := 2,
    categories := ["x", "y"], started_at := some 2 }

/-- Test fixture: a state holding one Processing job with an unset cancel event. -/
def stProc : ServiceState :=
  { jobs := [("j", jobProc)], job_cancel_events := [("j", false)] }

/-- Test fixture: one per-item result entry. -/
def entA : ResultEntry := { title := "a", predicted := "x", scores := [("x", 1)] }

/-- Test fixture: a Completed record with stored results. -/
def jobDone : JobStatus :=
  { status := .completed, created_at := 1, progress := 0, total := 1,
    categories := ["x"], started_at := some 2, completed_at := some 3,
    results := some [entA], log := some ["l"] }

/-- Test fixture: a state holding one Completed job. -/
def stDone : ServiceState :=
  { jobs := [("jd", jobDone)], job_cancel_events := [("jd", false)] }

/-- Test fixture: a record already Aborted (as a cancel leaves it), with
`completed_at = 5`. -/
def jobAbt : JobStatus :=
  { status := .aborted, created_at := 1, progress := 0, total := 1,
    categories := ["x"], started_at := some 2, completed_at := some 5 }

/-- Test fixture: a state holding the Aborted job with its cancel event set. -/
def stAbt : ServiceState :=
  { jobs := [("ja", jobAbt)], job_cancel_events := [("ja", true)] }

/-- Test fixture: a successful worker result, as a late completion delivers it. -/
def wrDone : WorkerResult :=
  { status := "completed", results := some [entA], log := some ["l1", "l2"] }

/-- Test fixture: an expired Aborted record (`completed_at = 10`). -/
def jobOld : JobStatus :=
  { status := .aborted, created_at := 1, progress := 0, total := 1,
    categories := ["x"], started_at := some 2, completed_at := some 10 }

/-- Test fixture: a state holding the expired job and its cancel event. -/
def stOld : ServiceState :=
  { jobs := [("jo", jobOld)], job_cancel_events := [("jo", true)] }

/-- Test fixture: the registry state right after submitting one item. -/
def stRun : ServiceState :=
  (classify_batch { jobs := [], job_cancel_events := [] } ["a"] ["x"] "j" 1 2).1

/-- Test fixture: the worker result of the submitted one-item job under `clsK`. -/
def wrRun : WorkerResult := process_classification_job clsK "j" ["a"] ["x"]

/-- Test fixture: the registry state after the completion callback fires. -/
def stFin : ServiceState := callback stRun "j" (.ok wrRun) 3

/-! Association-list lemmas. -/

theorem lookupR_insertR {α : Type} (m : List (String × α)) (k k' : String) (v : α) :
    lookupR (insertR m k v) k' = if k' = k then some v else lookupR m k' := by
  induction m with
  | nil =>
      by_cases h : k' = k
      · subst h; simp [insertR, lookupR]
      · simp [insertR, lookupR, h, Ne.symm h]
  | cons p ps ih =>
      by_cases hp : p.1 = k
      · by_cases h : k' = k
        · subst h; simp [insertR, lookupR, hp]
        · have hpk : ¬ p.1 = k' := by rw [hp]; exact Ne.symm h
          simp [insertR, lookupR, hp, h, Ne.symm h, hpk]
      · by_cases h : k' = k
        · subst h; simp [insertR, lookupR, hp, ih]
        · simp [insertR, lookupR, hp, h, ih]

theorem lookupR_updateR {α : Type} (m : List (String × α)) (k k' : String) (f : α → α) :
    lookupR (updateR m k f) k' =
      if k' = k then (lookupR m k).map f else lookupR m k' := by
  induction m with
  | nil =>
      by_cases h : k' = k <;> simp [updateR, lookupR, h]
  | cons p ps ih =>
      by_cases hp : p.1 = k
      · by_cases h : k' = k
        · subst h; simp [updateR, lookupR, hp]
        · have hpk : ¬ p.1 = k' := by rw [hp]; exact Ne.symm h
          simp [updateR, lookupR, hp, h, Ne.symm h, hpk]
      · by_cases h : k' = k
        · subst h; simp [updateR, lookupR, hp, ih]
        · simp [updateR, lookupR, hp, h, ih]

theorem lookupR_eraseR_ne {α : Type} (m : List (String × α)) {k k' : String}
    (h : k' ≠ k) : lookupR (eraseR m k) k' = lookupR m k' := by
  induction m with
  | nil => simp [eraseR]
  | cons p ps ih =>
      by_cases hp : p.1 = k
      · have hpk : ¬ p.1 = k' := by rw [hp]; exact Ne.symm h
        simp [eraseR, lookupR, hp, hpk, Ne.symm h]
      · simp [eraseR, lookupR, hp, ih]

theorem lookupR_eq_none {α : Type} (m : List (String × α)) (k : String)
    (h : k ∉ m.map Prod.fst) : lookupR m k = none := by
  induction m with
  | nil => simp [lookupR]
  | cons p ps ih =>
      simp only [List.map_cons, List.mem_cons, not_or] at h
      simp [lookupR, Ne.symm h.1, ih h.2]

theorem lookupR_eraseR_self {α : Type} (m : List (String × α)) (k : String)
    (hnd : (m.map Prod.fst).Nodup) : lookupR (eraseR m k) k = none := by
  induction m with
  | nil => simp [eraseR, lookupR]
  | cons p ps ih =>
      simp only [List.map_cons, List.nodup_cons] at hnd
      by_cases hp : p.1 = k
      · rw [show eraseR (p :: ps) k = ps from by simp [eraseR, hp]]
        exact lookupR_eq_none ps k (hp ▸ hnd.1)
      · simp [eraseR, lookupR, hp, ih hnd.2]

theorem keys_eraseR_sublist {α : Type} (m : List (String × α)) (k : String) :
    ((eraseR m k).map Prod.fst).Sublist (m.map Prod.fst) := by
  induction m with
  | nil => simp [eraseR]
  | cons p ps ih =>
      by_cases hp : p.1 = k
      · simp only [eraseR, if_pos hp, List.map_cons]
        exact List.sublist_cons_self _ _
      · simp only [eraseR, if_neg hp, List.map_cons]
        exact ih.cons₂ _

theorem nodup_eraseR {α : Type} (m : List (String × α)) (k : String)
    (hnd : (m.map Prod.fst).Nodup) : ((eraseR m k).map Prod.fst).Nodup :=
  hnd.sublist (keys_eraseR_sublist m k)

theorem lookupR_foldl_eraseR {α : Type} (ds : List String) (m : List (String × α))
    (k : String) (hnd : (m.map Prod.fst).Nodup) :
    lookupR (ds.foldl (fun a d => eraseR a d) m) k =
      if k ∈ ds then none else lookupR m k := by
  induction ds generalizing m with
  | nil => simp
  | cons d ds ih =>
      simp only [List.foldl_cons]
      rw [ih (eraseR m d) (nodup_eraseR m d hnd)]
      by_cases hk : k ∈ ds
      · simp [hk]
      · by_cases hkd : k = d
        · subst hkd; simp [hk, lookupR_eraseR_self m k hnd]
        · simp [hk, hkd, lookupR_eraseR_ne m hkd]

theorem lookupR_mapVal {α : Type} (m : List (String × α)) (h : α → α) (k : String) :
    lookupR (m.map (fun p => (p.1, h p.2))) k = (lookupR m k).map h := by
  induction m with
  | nil => simp [lookupR]
  | cons p ps ih =>
      by_cases hp : p.1 = k <;> simp [lookupR, hp, ih]

theorem mem_of_lookupR {α : Type} {m : List (String × α)} {k : String} {v : α}
    (h : lookupR m k = some v) : (k, v) ∈ m := by
  induction m with
  | nil => simp [lookupR] at h
  | cons p ps ih =>
      by_cases hp : p.1 = k
      · simp only [lookupR, if_pos hp] at h
        have hv : p.2 = v := by injection h
        have hpe : p = (k, v) := by
          cases p
          simp_all
        rw [List.mem_cons]
        left
        exact hpe.symm
      · simp only [lookupR, if_neg hp] at h
        exact List.mem_cons_of_mem _ (ih h)

theorem lookupR_eq_some_of_mem {α : Type} {m : List (String × α)} {k : String} {v : α}
    (hnd : (m.map Prod.fst).Nodup) (hm : (k, v) ∈ m) : lookupR m k = some v := by
  induction m with
  | nil => simp at hm
  | cons p ps ih =>
      simp only [List.map_cons, List.nodup_cons] at hnd
      rcases List.mem_cons.mp hm with h | h
      · rw [← h]; simp [lookupR]
      · have hk : ¬ p.1 = k := by
          intro hh
          exact hnd.1 (hh ▸ (List.mem_map.mpr ⟨(k, v), h, rfl⟩))
        simp [lookupR, hk, ih hnd.2 h]

theorem updateR_eq_of_lookup_none {α : Type} (m : List (String × α)) (k : String)
    (f : α → α) (h : lookupR m k = none) : updateR m k f = m := by
  induction m with
  | nil => simp [updateR]
  | cons p ps ih =>
      by_cases hp : p.1 = k
      · simp [lookupR, hp] at h
      · simp only [lookupR, if_neg hp] at h
        simp [updateR, hp, ih h]

theorem eraseR_sublist {α : Type} (m : List (String × α)) (k : String) :
    (eraseR m k).Sublist m := by
  induction m with
  | nil => simp [eraseR]
  | cons p ps ih =>
      by_cases hp : p.1 = k
      · simp only [eraseR, if_pos hp]
        exact List.sublist_cons_self _ _
      · simp only [eraseR, if_neg hp]
        exact ih.cons₂ _

theorem completedIffTerminal_of_bool (st : ServiceState)
    (h : completedIffTerminalB st = true) : completedIffTerminal st := by
  intro job_id job hlk
  have hm := mem_of_lookupR hlk
  have hall := List.all_eq_true.mp h _ hm
  cases hca : job.completed_at <;> cases hts : job.status.isTerminal <;>
    simp_all [completedIffTerminalB]

theorem head?_eq_headI {l : List String} (h : l ≠ []) : l.head? = some l.headI := by
  cases l with
  | nil => exact absurd rfl h
  | cons a as => rfl

theorem processItems_ok (cls : Classifier) (categories : List String)
    (titles : List String) (out : String → ClsOutput)
    (h : ∀ t ∈ titles, cls t categories = .ok (out t) ∧ (out t).labels ≠ []) :
    processItems cls categories titles
      = .ok (titles.map (fun t =>
          { title := t, predicted := (out t).labels.headI,
            scores := (out t).labels.zip (out t).scores })) := by
  induction titles with
  | nil => simp [processItems]
  | cons t ts ih =>
      obtain ⟨h1, h2⟩ := h t (List.mem_cons_self t ts)
      have hd := head?_eq_headI h2
      simp [processItems, classifyItem, h1, hd,
        ih (fun x hx => h x (List.mem_cons_of_mem _ hx))]

/-! Claim theorems. -/

/-- C5: submit rejects with a client error and creates no job record exactly
when the items list is empty, the categories list is empty, or the items list
has more than 100 entries; every other submission creates a Processing record
(with the fresh id, creation and start timestamps, total, categories) and
returns the id, status "processing" and the item count, touching no other
record. -/
theorem c5_submit_validation (st : ServiceState) (titles categories : List String)
    (job_id : String) (t1 t2 : Int) (hfresh : lookupR st.jobs job_id = none) :
    (titles = [] ∨ categories = [] ∨ titles.length > 100 →
      (classify_batch st titles categories job_id t1 t2).1 = st ∧
      ∃ e, (classify_batch st titles categories job_id t1 t2).2
        = SubmitResponse.invalid e) ∧
    (titles ≠ [] → categories ≠ [] → titles.length ≤ 100 →
      (classify_batch st titles categories job_id t1 t2).2
        = SubmitResponse.accepted job_id "processing" titles.length ∧
      lookupR (classify_batch st titles categories job_id t1 t2).1.jobs job_id
        = some { status := JobState.processing, created_at := t1, progress := 0,
                 total := titles.length, categories := categories,
                 started_at := some t2 } ∧
      lookupR (classify_batch st titles categories job_id t1 t2).1.job_cancel_events
          job_id = some false ∧
      (∀ k, k ≠ job_id →
        lookupR (classify_batch st titles categories job_id t1 t2).1.jobs k
          = lookupR st.jobs k)) := by
  constructor
  · intro h
    by_cases h1 : titles = [] ∨ categories = []
    · simp [classify_batch, h1]
    · have hlen : titles.length > 100 := by
        rcases h with h | h | h
        · exact absurd (Or.inl h) h1
        · exact absurd (Or.inr h) h1
        · exact h
      simp [classify_batch, h1, hlen]
  · intro ht hc hlen
    have h1 : ¬ (titles = [] ∨ categories = []) := by
      intro hor
      rcases hor with hh | hh
      · exact ht hh
      · exact hc hh
    have h2 : ¬ (titles.length > 100) := by omega
    refine ⟨by simp [classify_batch, h1, h2], ?_, ?_, ?_⟩
    · simp only [classify_batch, if_neg h1, if_neg h2]
      rw [lookupR_updateR]
      simp [lookupR_insertR]
    · simp only [classify_batch, if_neg h1, if_neg h2]
      simp [lookupR_insertR]
    · intro k hk
      simp only [classify_batch, if_neg h1, if_neg h2]
      rw [lookupR_updateR, if_neg hk, lookupR_insertR, if_neg hk]

/-- Witness for C5: a concrete valid one-item submission is accepted and
creates the Processing record. -/
theorem c5_submit_validation_witness :
    lookupR (ServiceState.mk [] []).jobs "j" = none ∧
    (classify_batch (ServiceState.mk [] []) ["a"] ["x"] "j" 1 2).2
      = SubmitResponse.accepted "j" "processing" 1 ∧
    lookupR (classify_batch (ServiceState.mk [] []) ["a"] ["x"] "j" 1 2).1.jobs "j"
      = some { status := JobState.processing, created_at := 1, progress := 0,
               total := 1, categories := ["x"], started_at := some 2 } := by
  refine ⟨by decide, ?_, ?_⟩
  · exact ((c5_submit_validation (ServiceState.mk [] []) ["a"] ["x"] "j" 1 2
      (by decide)).2 (by decide) (by decide) (by decide)).1
  · exact ((c5_submit_validation (ServiceState.mk [] []) ["a"] ["x"] "j" 1 2
      (by decide)).2 (by decide) (by decide) (by decide)).2.1

/-- C6: cancel returns NotFound for an unknown id; returns InvalidState naming
the current status for a terminal record; and for a Queued or Processing
record marks it Aborted with `completed_at` set, sets its cancellation event,
and returns status "aborted". -/
theorem c6_cancel_behaviour (st : ServiceState) (job_id : String) (now : Int) :
    (lookupR st.jobs job_id = none →
      cancel_job st job_id now = (st, CancelResponse.notFound "Job not found")) ∧
    (∀ job, lookupR st.jobs job_id = some job → job.status.isTerminal = true →
      cancel_job st job_id now
        = (st, CancelResponse.invalidState
            ("Cannot cancel job in state: " ++ job.status.value))) ∧
    (∀ job, lookupR st.jobs job_id = some job → job.status.isTerminal = false →
      (cancel_job st job_id now).2
        = CancelResponse.ok job_id "aborted" "Job cancellation requested" ∧
      lookupR (cancel_job st job_id now).1.jobs job_id
        = some { job with status := JobState.aborted, completed_at := some now } ∧
      ((lookupR st.job_cancel_events job_id).isSome = true →
        lookupR (cancel_job st job_id now).1.job_cancel_events job_id
          = some true)) := by
  refine ⟨?_, ?_, ?_⟩
  · intro h
    simp [cancel_job, h]
  · intro job hlk hterm
    have hqp : ¬ (job.status = JobState.queued ∨ job.status = JobState.processing) := by
      intro hor
      rcases hor with hh | hh <;> rw [hh] at hterm <;> simp [JobState.isTerminal] at hterm
    simp [cancel_job, hlk, hqp]
  · intro job hlk hterm
    have hqp : job.status = JobState.queued ∨ job.status = JobState.processing := by
      cases hs : job.status <;> rw [hs] at hterm <;>
        simp_all [JobState.isTerminal]
    refine ⟨by simp [cancel_job, hlk, hqp], ?_, ?_⟩
    · simp [cancel_job, hlk, hqp, lookupR_updateR]
    · intro hev
      simp [cancel_job, hlk, hqp, hev, lookupR_insertR]

/-- Witness for C6: cancelling the concrete Processing job succeeds, aborts the
record with `completed_at` set, and sets its event. -/
theorem c6_cancel_behaviour_witness :
    lookupR stProc.jobs "j" = some jobProc ∧ jobProc.status.isTerminal = false ∧
    (cancel_job stProc "j" 7).2
      = CancelResponse.ok "j" "aborted" "Job cancellation requested" ∧
    lookupR (cancel_job stProc "j" 7).1.jobs "j"
      = some { jobProc with status := JobState.aborted, completed_at := some 7 } ∧
    lookupR (cancel_job stProc "j" 7).1.job_cancel_events "j" = some true := by
  have h := (c6_cancel_behaviour stProc "j" 7).2.2 jobProc (by decide) (by decide)
  exact ⟨by decide, by decide, h.1, h.2.1, h.2.2 (by decide)⟩

/-- C7: results(id) returns NotFound for an unknown id; returns InvalidState
naming the current status for any non-Completed record; for a Completed record
returns exactly the stored results with total and categories; and the worker
produces, for a backend succeeding on every item, one entry per input item in
submission order, each carrying the item, the top-ranked label, and the
per-label score mapping. -/
theorem c7_results_behaviour (st : ServiceState) (job_id : String) :
    (lookupR st.jobs job_id = none →
      get_job_results st job_id = ResultsResponse.notFound "Job not found") ∧
    (∀ job, lookupR st.jobs job_id = some job → job.status ≠ JobState.completed →
      get_job_results st job_id
        = ResultsResponse.invalidState
            ("Job not completed yet (status: " ++ job.status.value ++ ")")) ∧
    (∀ job, lookupR st.jobs job_id = some job → job.status = JobState.completed →
      get_job_results st job_id
        = ResultsResponse.ok job_id job.results job.total job.categories) ∧
    (∀ (cls : Classifier) (titles categories : List String) (out : String → ClsOutput),
      (∀ t ∈ titles, cls t categories = Except.ok (out t) ∧ (out t).labels ≠ []) →
      (process_classification_job cls job_id titles categories).status = "completed" ∧
      (process_classification_job cls job_id titles categories).results
        = some (titles.map (fun t =>
            { title := t, predicted := (out t).labels.headI,
              scores := (out t).labels.zip (out t).scores }))) := by
  refine ⟨?_, ?_, ?_, ?_⟩
  · intro h
    simp [get_job_results, h]
  · intro job hlk hne
    simp [get_job_results, hlk, hne]
  · intro job hlk heq
    simp [get_job_results, hlk, heq]
  · intro cls titles categories out h
    constructor <;>
      simp [process_classification_job, processItems_ok cls categories titles out h]

/-- Witness for C7: the concrete Completed job's stored results are returned
verbatim, and the concrete worker run yields one in-order entry per item. -/
theorem c7_results_behaviour_witness :
    lookupR stDone.jobs "jd" = some jobDone ∧ jobDone.status = JobState.completed ∧
    get_job_results stDone "jd"
      = ResultsResponse.ok "jd" (some [entA]) 1 ["x"] ∧
    (process_classification_job clsK "jd" ["a", "b"] ["x"]).results
      = some [ { title := "a", predicted := "x", scores := [("x", 1)] },
               { title := "b", predicted := "x", scores := [("x", 1)] } ] := by
  refine ⟨by decide, by decide, ?_, ?_⟩
  · exact ((c7_results_behaviour stDone "jd").2.2.1 jobDone (by decide)
      (by decide)).trans (by decide)
  · refine (((c7_results_behaviour stDone "jd").2.2.2 clsK ["a", "b"] ["x"] outK
      ?_).2).trans (by decide)
    intro t ht
    fin_cases ht <;> exact ⟨rfl, by decide⟩

/-- C10: when the awaited future itself raises, the callback on a record still
present in the registry sets status Failed, stores the exception text in
`error`, sets `completed_at`, and leaves `results` and `log` (and every other
field, every other record, and the event directory) unchanged. -/
theorem c10_callback_future_exception (st : ServiceState) (job_id : String)
    (e : String) (now : Int) (job : JobStatus)
    (hlk : lookupR st.jobs job_id = some job) :
    lookupR (callback st job_id (Except.error e) now).jobs job_id
      = some { job with status := JobState.failed, error := some e,
                        completed_at := some now } ∧
    ({ job with status := JobState.failed, error := some e,
                completed_at := some now } : JobStatus).results = job.results ∧
    ({ job with status := JobState.failed, error := some e,
                completed_at := some now } : JobStatus).log = job.log ∧
    (callback st job_id (Except.error e) now).job_cancel_events
      = st.job_cancel_events ∧
    (∀ k, k ≠ job_id →
      lookupR (callback st job_id (Except.error e) now).jobs k
        = lookupR st.jobs k) := by
  refine ⟨?_, rfl, rfl, rfl, ?_⟩
  · simp [callback, lookupR_updateR, hlk]
  · intro k hk
    simp [callback, lookupR_updateR, hk]

/-- Witness for C10: a concrete dead-worker callback on the Processing job
marks it Failed with the exception text, keeping results and log. -/
theorem c10_callback_future_exception_witness :
    lookupR stProc.jobs "j" = some jobProc ∧
    lookupR (callback stProc "j" (Except.error "boom") 9).jobs "j"
      = some { jobProc with status := JobState.failed, error := some "boom",
                            completed_at := some 9 } := by
  exact ⟨by decide,
    (c10_callback_future_exception stProc "j" "boom" 9 jobProc (by decide)).1⟩

/-- C8: one reaper cycle deletes a record (and its cancellation event) exactly
when the record is terminal and its `completed_at` is strictly older than
`RESULT_TTL`; non-terminal records, records without `completed_at`, and
records at or below the retention age all survive unchanged, with their events
untouched. -/
theorem c8_reaper_cycle (st : ServiceState) (now : Int) (job_id : String)
    (job : JobStatus)
    (hndJ : (st.jobs.map Prod.fst).Nodup)
    (hndE : (st.job_cancel_events.map Prod.fst).Nodup)
    (hlk : lookupR st.jobs job_id = some job) :
    (reapable job now = true →
      lookupR (cleanup_step st now).jobs job_id = none ∧
      lookupR (cleanup_step st now).job_cancel_events job_id = none) ∧
    (reapable job now = false →
      lookupR (cleanup_step st now).jobs job_id = some job ∧
      lookupR (cleanup_step st now).job_cancel_events job_id
        = lookupR st.job_cancel_events job_id) ∧
    (∀ t, job.completed_at = some t → 0 < t →
      (reapable job now = true ↔
        (job.status.isTerminal = true ∧ now - t > RESULT_TTL))) ∧
    (job.completed_at = none → reapable job now = false) ∧
    (job.status.isTerminal = false → reapable job now = false) := by
  have hmem : job_id ∈ (st.jobs.filter (fun p => reapable p.2 now)).map Prod.fst
      ↔ reapable job now = true := by
    constructor
    · intro h
      obtain ⟨⟨k, v⟩, hpf, hpfst⟩ := List.mem_map.mp h
      obtain ⟨hpmem, hpreap⟩ := List.mem_filter.mp hpf
      subst hpfst
      have hv := lookupR_eq_some_of_mem hndJ hpmem
      rw [hlk] at hv
      injection hv with hv
      rw [← hv] at hpreap
      exact hpreap
    · intro h
      exact List.mem_map.mpr
        ⟨(job_id, job), List.mem_filter.mpr ⟨mem_of_lookupR hlk, h⟩, rfl⟩
  refine ⟨?_, ?_, ?_, ?_, ?_⟩
  · intro h
    constructor
    · rw [show (cleanup_step st now).jobs
          = ((st.jobs.filter (fun p => reapable p.2 now)).map Prod.fst).foldl
              (fun m k => eraseR m k) st.jobs from rfl]
      rw [lookupR_foldl_eraseR _ _ _ hndJ, if_pos (hmem.mpr h)]
    · rw [show (cleanup_step st now).job_cancel_events
          = ((st.jobs.filter (fun p => reapable p.2 now)).map Prod.fst).foldl
              (fun m k => eraseR m k) st.job_cancel_events from rfl]
      rw [lookupR_foldl_eraseR _ _ _ hndE, if_pos (hmem.mpr h)]
  · intro h
    have hnm : job_id ∉ (st.jobs.filter (fun p => reapable p.2 now)).map Prod.fst := by
      intro hc
      rw [hmem.mp hc] at h
      cases h
    constructor
    · rw [show (cleanup_step st now).jobs
          = ((st.jobs.filter (fun p => reapable p.2 now)).map Prod.fst).foldl
              (fun m k => eraseR m k) st.jobs from rfl]
      rw [lookupR_foldl_eraseR _ _ _ hndJ, if_neg hnm, hlk]
    · rw [show (cleanup_step st now).job_cancel_events
          = ((st.jobs.filter (fun p => reapable p.2 now)).map Prod.fst).foldl
              (fun m k => eraseR m k) st.job_cancel_events from rfl]
      rw [lookupR_foldl_eraseR _ _ _ hndE, if_neg hnm]
  · intro t hct h0
    have ht : t ≠ 0 := by omega
    simp [reapable, hct, ht]
  · intro hct
    simp [reapable, hct]
  · intro hterm
    simp [reapable, hterm]

/-- Witness for C8: at time 5000 the expired Aborted record (completed at 10)
is deleted along with its event, while the fresh Aborted record (completed at
5) in a second state survives a cycle at time 100. -/
theorem c8_reaper_cycle_witness :
    (stOld.jobs.map Prod.fst).Nodup ∧
    (stOld.job_cancel_events.map Prod.fst).Nodup ∧
    lookupR stOld.jobs "jo" = some jobOld ∧
    reapable jobOld 5000 = true ∧
    lookupR (cleanup_step stOld 5000).jobs "jo" = none ∧
    lookupR (cleanup_step stOld 5000).job_cancel_events "jo" = none ∧
    reapable jobAbt 100 = false ∧
    lookupR (cleanup_step stAbt 100).jobs "ja" = some jobAbt := by
  have h1 := (c8_reaper_cycle stOld 5000 "jo" jobOld (by decide) (by decide)
    (by decide)).1 (by decide)
  have h2 := ((c8_reaper_cycle stAbt 100 "ja" jobAbt (by decide) (by decide)
    (by decide)).2.1 (by decide)).1
  exact ⟨by decide, by decide, by decide, by decide, h1.1, h1.2, by decide, h2⟩

/-- Counterexample for C1: the record "ja" is already Aborted (as a cancel
leaves it), yet a late callback delivering a Completed worker result
overwrites its status to Completed — the callback is not idempotent with
respect to terminal state. -/
theorem c1_late_callback_overwrites_aborted :
    (lookupR stAbt.jobs "ja").map JobStatus.status = some JobState.aborted ∧
    (lookupR (callback stAbt "ja" (Except.ok wrDone) 9).jobs "ja").map
        JobStatus.status = some JobState.completed ∧
    JobState.completed ≠ JobState.aborted := by
  exact ⟨by decide, by decide, by decide⟩

/-- C1 (amended): the completion callback guards only on the record's
existence, not on its state: it is a no-op exactly when the record has been
deleted, and whenever the record is still present — terminal, Aborted, or
not — it overwrites status, results, error, log, and `completed_at` with the
delivered outcome. -/
theorem c1_callback_guards_only_on_presence (st : ServiceState) (job_id : String)
    (r : WorkerResult) (s : JobState) (now : Int)
    (hs : JobState.fromString r.status = some s) :
    (lookupR st.jobs job_id = none →
      callback st job_id (Except.ok r) now = st) ∧
    (∀ job, lookupR st.jobs job_id = some job →
      lookupR (callback st job_id (Except.ok r) now).jobs job_id
        = some { job with status := s, results := r.results, error := r.error,
                          log := r.log, completed_at := some now }) := by
  constructor
  · intro h
    simp [callback, hs, updateR_eq_of_lookup_none _ _ _ h]
  · intro job hlk
    simp [callback, hs, lookupR_updateR, hlk]

/-- Witness for C1 (amended): applied to the concrete Aborted record, the late
Completed callback rewrites the record in place. -/
theorem c1_callback_guards_only_on_presence_witness :
    JobState.fromString wrDone.status = some JobState.completed ∧
    lookupR stAbt.jobs "ja" = some jobAbt ∧
    lookupR (callback stAbt "ja" (Except.ok wrDone) 9).jobs "ja"
      = some { jobAbt with status := JobState.completed, results := wrDone.results,
                           error := wrDone.error, log := wrDone.log,
                           completed_at := some 9 } := by
  exact ⟨by decide, by decide,
    (c1_callback_guards_only_on_presence stAbt "ja" wrDone JobState.completed 9
      (by decide)).2 jobAbt (by decide)⟩

/-- Counterexample for C2: the cancellation handle of job "j" is set (by the
cancel endpoint) before any item starts, yet the job body still sends both
items to the backend and reports Completed with a full two-entry result list
instead of stopping early and reporting Aborted. -/
theorem c2_body_never_polls_cancellation :
    lookupR (cancel_job stProc "j" 4).1.job_cancel_events "j" = some true ∧
    process_classification_job clsK "j" ["a", "b"] ["x"]
      = { status := "completed",
          results := some [ { title := "a", predicted := "x", scores := [("x", 1)] },
                            { title := "b", predicted := "x", scores := [("x", 1)] } ],
          log := some [startMsg "j" 2, doneMsg "j"] } ∧
    ("completed" : String) ≠ "aborted" := by
  exact ⟨by decide, by decide, by decide⟩

/-- C2 (amended): the job body takes no cancellation handle and never consults
`job_cancel_events` (the event lives in the parent process and is unreadable
from the worker process); whenever the backend succeeds on every item it
classifies all of them in submission order and reports Completed, regardless
of any cancel request. -/
theorem c2_body_processes_every_item (cls : Classifier) (job_id : String)
    (titles categories : List String) (out : String → ClsOutput)
    (h : ∀ t ∈ titles, cls t categories = Except.ok (out t) ∧ (out t).labels ≠ []) :
    (process_classification_job cls job_id titles categories).status = "completed" ∧
    (process_classification_job cls job_id titles categories).results
      = some (titles.map (fun t =>
          { title := t, predicted := (out t).labels.headI,
            scores := (out t).labels.zip (out t).scores })) ∧
    (process_classification_job cls job_id titles categories).status ≠ "aborted" := by
  have hp := processItems_ok cls categories titles out h
  refine ⟨?_, ?_, ?_⟩ <;> simp [process_classification_job, hp]

/-- Witness for C2 (amended): the concrete two-item batch is fully classified. -/
theorem c2_body_processes_every_item_witness :
    (process_classification_job clsK "j" ["a", "b"] ["x"]).status = "completed" ∧
    (process_classification_job clsK "j" ["a", "b"] ["x"]).results
      = some [ { title := "a", predicted := "x", scores := [("x", 1)] },
               { title := "b", predicted := "x", scores := [("x", 1)] } ] := by
  have h := c2_body_processes_every_item clsK "j" ["a", "b"] ["x"] outK
    (by intro t ht; fin_cases ht <;> exact ⟨rfl, by decide⟩)
  exact ⟨h.1, h.2.1.trans (by decide)⟩

/-- Counterexample for C3: the Aborted record has `completed_at = 5`; the late
completion callback at time 9 changes it to 9 — `completed_at`, once set, can
still be overwritten. -/
theorem c3_completed_at_rewritten_by_late_callback :
    (lookupR stAbt.jobs "ja").map JobStatus.completed_at = some (some 5) ∧
    (lookupR (callback stAbt "ja" (Except.ok wrDone) 9).jobs "ja").map
        JobStatus.completed_at = some (some 9) ∧
    (9 : Int) ≠ 5 := by
  exact ⟨by decide, by decide, by decide⟩

/-- C3 (amended): `completed_at` is set exactly when the status is terminal,
and every operation preserves this invariant; cancel and shutdown never touch
a record whose `completed_at` is already set, and the reaper only deletes
records; the one exception to immutability is the completion callback, which
overwrites `completed_at` of any record still present (see the
counterexample). -/
theorem c3_completed_at_discipline (st : ServiceState)
    (hinv : completedIffTerminal st) :
    (∀ titles categories job_id t1 t2,
      completedIffTerminal (classify_batch st titles categories job_id t1 t2).1) ∧
    (∀ job_id now, completedIffTerminal (cancel_job st job_id now).1) ∧
    (∀ job_id r s now, JobState.fromString r.status = some s →
      s.isTerminal = true →
      completedIffTerminal (callback st job_id (Except.ok r) now)) ∧
    (∀ job_id e now,
      completedIffTerminal (callback st job_id (Except.error e) now)) ∧
    (∀ now, (st.jobs.map Prod.fst).Nodup →
      completedIffTerminal (cleanup_step st now)) ∧
    (∀ now, completedIffTerminal (shutdown_gracefully st now)) ∧
    (∀ job_id now job t, lookupR st.jobs job_id = some job →
      job.completed_at = some t → (cancel_job st job_id now).1 = st) ∧
    (∀ now job_id job t, lookupR st.jobs job_id = some job →
      job.completed_at = some t →
      lookupR (shutdown_gracefully st now).jobs job_id = some job) := by
  refine ⟨?_, ?_, ?_, ?_, ?_, ?_, ?_, ?_⟩
  · intro titles categories job_id t1 t2
    by_cases h1 : titles = [] ∨ categories = []
    · simpa [classify_batch, h1] using hinv
    · by_cases h2 : titles.length > 100
      · simpa [classify_batch, h1, h2] using hinv
      · intro k job' hlk'
        simp only [classify_batch, if_neg h1, if_neg h2] at hlk'
        rw [lookupR_updateR] at hlk'
        by_cases hk : k = job_id
        · rw [if_pos hk, lookupR_insertR, if_pos rfl] at hlk'
          simp only [Option.map_some'] at hlk'
          injection hlk' with h3
          rw [← h3]
          simp [JobState.isTerminal]
        · rw [if_neg hk, lookupR_insertR, if_neg hk] at hlk'
          exact hinv k job' hlk'
  · intro job_id now k job' hlk'
    cases hlk : lookupR st.jobs job_id with
    | none =>
        simp only [cancel_job, hlk] at hlk'
        exact hinv k job' hlk'
    | some job =>
        by_cases hqp : job.status = JobState.queued ∨ job.status = JobState.processing
        · simp only [cancel_job, hlk, if_pos hqp] at hlk'
          rw [lookupR_updateR] at hlk'
          by_cases hk : k = job_id
          · rw [if_pos hk, hlk] at hlk'
            simp only [Option.map_some'] at hlk'
            injection hlk' with h3
            rw [← h3]
            simp [JobState.isTerminal]
          · rw [if_neg hk] at hlk'
            exact hinv k job' hlk'
        · simp only [cancel_job, hlk, if_neg hqp] at hlk'
          exact hinv k job' hlk'
  · intro job_id r s now hs hterm k job' hlk'
    simp only [callback, hs] at hlk'
    rw [lookupR_updateR] at hlk'
    by_cases hk : k = job_id
    · rw [if_pos hk] at hlk'
      cases hlk2 : lookupR st.jobs job_id with
      | none => rw [hlk2] at hlk'; cases hlk'
      | some job =>
          rw [hlk2] at hlk'
          simp only [Option.map_some'] at hlk'
          injection hlk' with h3
          rw [← h3]
          simp [hterm]
    · rw [if_neg hk] at hlk'
      exact hinv k job' hlk'
  · intro job_id e now k job' hlk'
    simp only [callback] at hlk'
    rw [lookupR_updateR] at hlk'
    by_cases hk : k = job_id
    · rw [if_pos hk] at hlk'
      cases hlk2 : lookupR st.jobs job_id with
      | none => rw [hlk2] at hlk'; cases hlk'
      | some job =>
          rw [hlk2] at hlk'
          simp only [Option.map_some'] at hlk'
          injection hlk' with h3
          rw [← h3]
          simp [JobState.isTerminal]
    · rw [if_neg hk] at hlk'
      exact hinv k job' hlk'
  · intro now hnd k job' hlk'
    rw [show (cleanup_step st now).jobs
        = ((st.jobs.filter (fun p => reapable p.2 now)).map Prod.fst).foldl
            (fun m d => eraseR m d) st.jobs from rfl,
      lookupR_foldl_eraseR _ _ _ hnd] at hlk'
    by_cases hm : k ∈ (st.jobs.filter (fun p => reapable p.2 now)).map Prod.fst
    · rw [if_pos hm] at hlk'
      cases hlk'
    · rw [if_neg hm] at hlk'
      exact hinv k job' hlk'
  · intro now k job' hlk'
    rw [show (shutdown_gracefully st now).jobs
        = st.jobs.map (fun p => (p.1, shutJob now p.2)) from rfl,
      lookupR_mapVal] at hlk'
    cases hlk2 : lookupR st.jobs k with
    | none => rw [hlk2] at hlk'; cases hlk'
    | some job =>
        rw [hlk2] at hlk'
        simp only [Option.map_some'] at hlk'
        injection hlk' with h3
        rw [← h3]
        by_cases hc : job.status = JobState.queued ∨ job.status = JobState.processing
        · simp [shutJob, hc, JobState.isTerminal]
        · simp only [shutJob, if_neg hc]
          exact hinv k job hlk2
  · intro job_id now job t hlk hct
    have hterm : job.status.isTerminal = true :=
      (hinv job_id job hlk).mp (by simp [hct])
    have hqp : ¬ (job.status = JobState.queued ∨ job.status = JobState.processing) := by
      intro hor
      rcases hor with hh | hh <;> rw [hh] at hterm <;>
        simp [JobState.isTerminal] at hterm
    simp [cancel_job, hlk, hqp]
  · intro now job_id job t hlk hct
    have hterm : job.status.isTerminal = true :=
      (hinv job_id job hlk).mp (by simp [hct])
    have hqp : ¬ (job.status = JobState.queued ∨ job.status = JobState.processing) := by
      intro hor
      rcases hor with hh | hh <;> rw [hh] at hterm <;>
        simp [JobState.isTerminal] at hterm
    rw [show (shutdown_gracefully st now).jobs
        = st.jobs.map (fun p => (p.1, shutJob now p.2)) from rfl,
      lookupR_mapVal, hlk]
    simp [shutJob, hqp]

/-- Witness for C3 (amended): on the concrete Aborted state the invariant
holds and cancelling the already-terminal job leaves the state untouched. -/
theorem c3_completed_at_discipline_witness :
    completedIffTerminalB stAbt = true ∧
    lookupR stAbt.jobs "ja" = some jobAbt ∧
    jobAbt.completed_at = some 5 ∧
    (cancel_job stAbt "ja" 7).1 = stAbt := by
  refine ⟨by decide, by decide, by decide, ?_⟩
  exact (c3_completed_at_discipline stAbt
    (completedIffTerminal_of_bool stAbt (by decide))).2.2.2.2.2.2.1 "ja" 7 jobAbt 5
    (by decide) (by decide)

/-- Counterexample for C4: after submitting a one-item batch and receiving the
successful completion callback, the record is Completed with total 1 yet its
progress is still 0, not the fraction 1 of processed items. -/
theorem c4_completed_job_has_zero_progress :
    (lookupR stFin.jobs "j").map JobStatus.status = some JobState.completed ∧
    (lookupR stFin.jobs "j").map JobStatus.progress = some 0 ∧
    (lookupR stFin.jobs "j").map JobStatus.total = some 1 ∧
    (0 : Rat) ≠ 1 := by
  exact ⟨by decide, by decide, by decide, by decide⟩

/-- C4 (amended): `progress` is initialised to 0 at submission and never
written again: cancel, both callback paths, and shutdown preserve every
record's progress, and the reaper either deletes a record or leaves it
untouched — so progress stays 0 in every reachable state, including Completed
records, where it does not reflect the processed items. -/
theorem c4_progress_constant (st : ServiceState) :
    (∀ titles categories job_id t1 t2,
      titles ≠ [] → categories ≠ [] → titles.length ≤ 100 →
      (lookupR (classify_batch st titles categories job_id t1 t2).1.jobs job_id).map
          JobStatus.progress = some 0) ∧
    (∀ job_id now k,
      (lookupR (cancel_job st job_id now).1.jobs k).map JobStatus.progress
        = (lookupR st.jobs k).map JobStatus.progress) ∧
    (∀ job_id outcome now k,
      (lookupR (callback st job_id outcome now).jobs k).map JobStatus.progress
        = (lookupR st.jobs k).map JobStatus.progress) ∧
    (∀ now k,
      (lookupR (shutdown_gracefully st now).jobs k).map JobStatus.progress
        = (lookupR st.jobs k).map JobStatus.progress) ∧
    (∀ now k, (st.jobs.map Prod.fst).Nodup →
      lookupR (cleanup_step st now).jobs k = none ∨
      lookupR (cleanup_step st now).jobs k = lookupR st.jobs k) := by
  refine ⟨?_, ?_, ?_, ?_, ?_⟩
  · intro titles categories job_id t1 t2 ht hc hlen
    have h1 : ¬ (titles = [] ∨ categories = []) := by
      intro hor
      rcases hor with hh | hh
      · exact ht hh
      · exact hc hh
    have h2 : ¬ (titles.length > 100) := by omega
    simp only [classify_batch, if_neg h1, if_neg h2]
    rw [lookupR_updateR, if_pos rfl, lookupR_insertR, if_pos rfl]
    rfl
  · intro job_id now k
    cases hlk : lookupR st.jobs job_id with
    | none => simp [cancel_job, hlk]
    | some job =>
        by_cases hqp : job.status = JobState.queued ∨ job.status = JobState.processing
        · by_cases hk : k = job_id
          · subst hk
            simp [cancel_job, hlk, hqp, lookupR_updateR]
          · simp [cancel_job, hlk, hqp, lookupR_updateR, hk]
        · simp [cancel_job, hlk, hqp]
  · intro job_id outcome now k
    by_cases hk : k = job_id
    · subst hk
      cases outcome with
      | ok r =>
          cases hs : JobState.fromString r.status <;>
            · simp only [callback, hs]
              rw [lookupR_updateR, if_pos rfl]
              cases lookupR st.jobs k <;> simp
      | error e =>
          simp only [callback]
          rw [lookupR_updateR, if_pos rfl]
          cases lookupR st.jobs k <;> simp
    · cases outcome with
      | ok r =>
          cases hs : JobState.fromString r.status <;>
            · simp only [callback, hs]
              rw [lookupR_updateR, if_neg hk]
      | error e =>
          simp only [callback]
          rw [lookupR_updateR, if_neg hk]
  · intro now k
    rw [show (shutdown_gracefully st now).jobs
        = st.jobs.map (fun p => (p.1, shutJob now p.2)) from rfl,
      lookupR_mapVal]
    cases lookupR st.jobs k with
    | none => rfl
    | some job =>
        by_cases hc : job.status = JobState.queued ∨ job.status = JobState.processing <;>
          simp [shutJob, hc]
  · intro now k hnd
    rw [show (cleanup_step st now).jobs
        = ((st.jobs.filter (fun p => reapable p.2 now)).map Prod.fst).foldl
            (fun m d => eraseR m d) st.jobs from rfl,
      lookupR_foldl_eraseR _ _ _ hnd]
    by_cases hm : k ∈ (st.jobs.filter (fun p => reapable p.2 now)).map Prod.fst
    · left
      rw [if_pos hm]
    · right
      rw [if_neg hm]

/-- Witness for C4 (amended): a concrete submission creates progress 0 and a
concrete cancel keeps it. -/
theorem c4_progress_constant_witness :
    (lookupR (classify_batch (ServiceState.mk [] []) ["b"] ["y"] "k" 3 4).1.jobs "k").map
        JobStatus.progress = some 0 ∧
    (lookupR (cancel_job stProc "j" 7).1.jobs "j").map JobStatus.progress
      = (lookupR stProc.jobs "j").map JobStatus.progress := by
  exact ⟨(c4_progress_constant (ServiceState.mk [] [])).1 ["b"] ["y"] "k" 3 4
      (by decide) (by decide) (by decide),
    (c4_progress_constant stProc).2.1 "j" 7 "j"⟩

end MLService
